import Mathlib

/-
Verification of the FM-ReturnPrediction data pipeline.

The repository is a set of Jupyter notebooks that pull CRSP security data and
Compustat fundamentals from a remote service, cache them as local files, join
the two panels through a link table with a reporting-lag rule, and compute
derived factor variables (market equity, log size, log book-to-market,
momentum, rolling volatility and beta, ...).

The notebooks under src/ only call the pipeline functions; the modules that
define them (pull_crsp, pull_compustat, transform_crsp, transform_compustat,
calc_Lewellen_2014) are not part of the sources provided, so every operation
below is modelled from the specification, faithful to its words, and the
claims are settled against these models.

Conventions of the embedding:
  * dates (calendar dates, fiscal period ends, report dates) are day/month
    numbers in Nat; comparisons on them are the usual Nat order;
  * numeric data is Rat; a possibly-missing value is Option Rat;
  * the natural logarithm and the square root are abstracted as function
    parameters of type Rat -> Real, so all table-level definitions stay
    executable; instantiating the parameter with Real.log on casts gives the
    intended reading;
  * a fetched table is a List of row structures; a pivoted daily panel is a
    function from (security, day) to Option Rat.
-/

/-- Security-period observation of the monthly CRSP panel: one row per
(permno, calendar month) with return, price and shares outstanding, each
possibly missing. Modelled from the spec: the fetch layer's
security-period observation. -/
structure SecRow where
  permno : Nat
  date : Nat
  retx : Option ℚ
  prc : Option ℚ
  shrout : Option ℚ
deriving DecidableEq, Repr

/-- Security-period row after `calculate_market_equity` appended the market
equity column. -/
structure MeRow where
  permno : Nat
  date : Nat
  retx : Option ℚ
  prc : Option ℚ
  shrout : Option ℚ
  me : Option ℚ
deriving DecidableEq, Repr

/-- Firm-fiscal-period observation of the Compustat panel, with the
report date added by `add_report_date` and book equity added by
`calc_book_equity` (both 0 / none until those transforms run). Modelled
from the spec: the firm-fiscal-period observation data model. -/
structure FundRow where
  gvkey : Nat
  datadate : Nat
  report_date : Nat
  seq : Option ℚ
  ps : Option ℚ
  txditc : Option ℚ
  be : Option ℚ
deriving DecidableEq, Repr

/-- Identifier-bridge entry: a permno-gvkey mapping valid on the closed date
range [linkdt, linkenddt]. Modelled from the spec: the many-to-many,
time-validity-scoped bridge table. -/
structure LinkRow where
  permno : Nat
  gvkey : Nat
  linkdt : Nat
  linkenddt : Nat
deriving DecidableEq, Repr

/-- Merged security-period row: the CRSP fields together with the attached
fundamentals observation, when one exists. -/
structure MergedRow where
  permno : Nat
  date : Nat
  retx : Option ℚ
  prc : Option ℚ
  shrout : Option ℚ
  me : Option ℚ
  fund : Option FundRow
deriving DecidableEq, Repr

/-- Market equity of one row: price times shares outstanding, missing when
either operand is missing. Modelled from the spec: market equity from
price x shares outstanding. -/
def marketEquity : Option ℚ → Option ℚ → Option ℚ
  | some p, some s => some (p * s)
  | _, _ => none

/-- Modelled from the spec: `calculate_market_equity` (transform_crsp module,
not under src/) appends the market-equity column to the monthly CRSP panel. -/
def calculate_market_equity (rows : List SecRow) : List MeRow :=
  rows.map (fun r => ⟨r.permno, r.date, r.retx, r.prc, r.shrout, marketEquity r.prc r.shrout⟩)

/-- Modelled from the spec: `add_report_date` (transform_compustat module,
not under src/) sets each fundamentals row's report date to its fiscal
period end plus a fixed reporting lag. -/
def add_report_date (lag : Nat) (rows : List FundRow) : List FundRow :=
  rows.map (fun f => { f with report_date := f.datadate + lag })

/-- Book equity of one fundamentals row: stockholders' equity plus deferred
taxes minus preferred stock, missing values of the latter two treated as 0,
missing when stockholders' equity is missing. Modelled from the spec: book
equity from fundamentals fields. -/
def bookEquity (f : FundRow) : Option ℚ :=
  match f.seq with
  | some s => some (s + (f.txditc.getD 0) - (f.ps.getD 0))
  | none => none

/-- Modelled from the spec: `calc_book_equity` (transform_compustat module,
not under src/) appends the book-equity column to the fundamentals panel. -/
def calc_book_equity (rows : List FundRow) : List FundRow :=
  rows.map (fun f => { f with be := bookEquity f })

/-- Fundamentals observations available for a security on a date: those whose
firm identifier is bridged to the security by a link whose validity range
covers the date, and whose report date is at most the date. Modelled from
the spec: locate all bridge entries whose validity range covers that
period's date, select the matching firm identifier(s), and consider the
fundamentals observations whose reporting date is at most the period's
date. -/
def fundCandidates (comp : List FundRow) (ccm : List LinkRow) (p d : Nat) :
    List FundRow :=
  comp.filter (fun f =>
    decide (f.report_date ≤ d) &&
      ccm.any (fun l =>
        decide (l.permno = p ∧ l.gvkey = f.gvkey ∧ l.linkdt ≤ d ∧ d ≤ l.linkenddt)))

/-- One step of the most-recent-report-date selection: compare a row against
the best row seen so far, if any. -/
def pickBetter (f : FundRow) : Option FundRow → Option FundRow
  | none => some f
  | some g => if f.report_date < g.report_date then some g else some f

/-- Most recent of a list of fundamentals observations, by report date;
none on the empty list. Ties keep the earlier listed row. -/
def pickLatest : List FundRow → Option FundRow
  | [] => none
  | f :: fs => pickBetter f (pickLatest fs)

/-- Modelled from the spec: `merge_CRSP_and_Compustat` (not under src/)
produces one combined row per security-period row, attaching the most
recent available fundamentals observation; unmatched rows keep empty
fundamentals fields and no row is dropped. -/
def merge_CRSP_and_Compustat (crsp : List MeRow) (comp : List FundRow)
    (ccm : List LinkRow) : List MergedRow :=
  crsp.map (fun r =>
    ⟨r.permno, r.date, r.retx, r.prc, r.shrout, r.me,
      pickLatest (fundCandidates comp ccm r.permno r.date)⟩)

/-- Daily security-period observation of the daily CRSP panel. -/
structure DRow where
  permno : Nat
  day : Nat
  ret : Option ℚ
deriving DecidableEq, Repr

/-- Daily index observation of the CRSP index panel. -/
structure IRow where
  day : Nat
  ret : Option ℚ
deriving DecidableEq, Repr

/-- Result of one fetch operation: the returned table, the cache slot for its
file after the call, and whether the remote service was contacted. -/
structure PullResult (β : Type) where
  table : List β
  slot : Option (List β)
  usedNetwork : Bool
deriving DecidableEq

/-- Drop rows whose key was already seen (the accumulator holds the keys of
rows kept so far); the first occurrence of each key is kept. -/
def dropDupKeysAux {β κ : Type} [DecidableEq κ] (key : β → κ) (seen : List κ) :
    List β → List β
  | [] => []
  | x :: xs =>
    if key x ∈ seen then dropDupKeysAux key seen xs
    else x :: dropDupKeysAux key (key x :: seen) xs

/-- Drop duplicate keys from a table, keeping the first occurrence of each
key. Modelled from the spec: the fetch layer's drop-duplicate-keys
normalization step. -/
def dropDupKeys {β κ : Type} [DecidableEq κ] (key : β → κ) (l : List β) :
    List β :=
  dropDupKeysAux key [] l

/-- Light normalization applied to a freshly fetched table: a per-row map
standing for the column renaming and the date coercion, then duplicate-key
removal. Modelled from the spec: rename columns to canonical lowercase
names, coerce date columns, drop duplicate keys. -/
def normalizeTable {β κ : Type} [DecidableEq κ] (normRow : β → β) (key : β → κ)
    (t : List β) : List β :=
  dropDupKeys key (t.map normRow)

/-- Cache-or-fetch skeleton shared by the date-ranged fetch operations: if the
cache slot for the file is occupied, return its contents unchanged without
contacting the remote service; otherwise query the remote service for the
date range, normalize, write the result to the cache slot, and return it.
Modelled from the spec: the fetch-and-cache contract. -/
def pull_dataset {β κ : Type} [DecidableEq κ] (slot : Option (List β))
    (remote : Nat → Nat → List β) (normRow : β → β) (key : β → κ)
    (s e : Nat) : PullResult β :=
  match slot with
  | some t => ⟨t, some t, false⟩
  | none =>
    let t := normalizeTable normRow key (remote s e)
    ⟨t, some t, true⟩

/-- Modelled from the spec: `pull_CRSP_stock` (pull_crsp module, not under
src/) fetches the CRSP stock panel for a date range, with the cache-or-fetch
contract; the row type covers both the daily and the monthly frequency. -/
def pull_CRSP_stock {β κ : Type} [DecidableEq κ] (slot : Option (List β))
    (remote : Nat → Nat → List β) (normRow : β → β) (key : β → κ)
    (s e : Nat) : PullResult β :=
  pull_dataset slot remote normRow key s e

/-- Modelled from the spec: `pull_Compustat` (pull_compustat module, not under
src/) fetches the Compustat fundamentals panel for a date range, with the
cache-or-fetch contract. -/
def pull_Compustat {β κ : Type} [DecidableEq κ] (slot : Option (List β))
    (remote : Nat → Nat → List β) (normRow : β → β) (key : β → κ)
    (s e : Nat) : PullResult β :=
  pull_dataset slot remote normRow key s e

/-- Modelled from the spec: `pull_CRSP_index` (pull_crsp module, not under
src/) fetches the CRSP index panel for a date range, with the cache-or-fetch
contract. -/
def pull_CRSP_index {β κ : Type} [DecidableEq κ] (slot : Option (List β))
    (remote : Nat → Nat → List β) (normRow : β → β) (key : β → κ)
    (s e : Nat) : PullResult β :=
  pull_dataset slot remote normRow key s e

/-- Modelled from the spec: `pull_CRSP_Comp_link_table` (pull_compustat
module, not under src/) fetches the full CRSP-Compustat link table, with the
cache-or-fetch contract; it takes no date range, as at its call sites. -/
def pull_CRSP_Comp_link_table {β κ : Type} [DecidableEq κ]
    (slot : Option (List β)) (remote : List β) (normRow : β → β)
    (key : β → κ) : PullResult β :=
  match slot with
  | some t => ⟨t, some t, false⟩
  | none =>
    let t := normalizeTable normRow key remote
    ⟨t, some t, true⟩

/-- Concrete remote service used in C2's witness: returns a table with a
duplicate key. -/
def wRemote : Nat → Nat → List Nat := fun _ _ => [1, 2, 2, 3]

/-- Concrete cached table used in C2's witness. -/
def wTab : List Nat := [5, 5]

/-- Sequence a list of possibly-missing values: the full list when every
entry is present, none as soon as one is missing. -/
def seqOptions {α : Type} : List (Option α) → Option (List α)
  | [] => some []
  | o :: xs => o.bind (fun x => (seqOptions xs).map (fun ys => x :: ys))

/-- The eleven trailing return observations entering the momentum measure at
period t: months t-12 through t-2, all strictly before t. Modelled from the
spec: momentum is the cumulative log return over months t-12..t-2. -/
def momWindow (ret : Nat → Option ℚ) (t : Nat) : List (Option ℚ) :=
  (List.range 11).map (fun i => ret (t - 12 + i))

/-- Momentum of one security at period t: the cumulative log return over
months t-12..t-2, missing when the period has fewer than 12 prior months or
any window observation is missing. Modelled from the spec: the per-security
trailing-window momentum computation inside `calc_return_12_2`
(calc_Lewellen_2014 module, not under src/). -/
def momAt (lg : ℚ → ℝ) (ret : Nat → Option ℚ) (t : Nat) : Option ℝ :=
  if 12 ≤ t then
    (seqOptions (momWindow ret t)).map
      (fun rs => (rs.map (fun r => lg (1 + r))).sum)
  else none

/-- The twelve trailing observations entering the rolling volatility and beta
at period t: periods t-12 through t-1, all strictly before t. -/
def trailWindow (ret : Nat → Option ℚ) (t : Nat) : List (Option ℚ) :=
  (List.range 12).map (fun i => ret (t - 12 + i))

/-- Arithmetic mean of a list of rationals (0 on the empty list). -/
def meanQ (rs : List ℚ) : ℚ := rs.sum / rs.length

/-- Population variance of a list of rationals. -/
def varQ (rs : List ℚ) : ℚ :=
  ((rs.map (fun x => (x - meanQ rs) ^ 2)).sum) / rs.length

/-- Covariance of two equally long lists of rationals. -/
def covQ (xs ys : List ℚ) : ℚ :=
  (((xs.zip ys).map (fun q => (q.1 - meanQ xs) * (q.2 - meanQ ys))).sum) /
    xs.length

/-- Rolling variance of one security's returns at period t over the trailing
window, missing on insufficient history or any missing observation. -/
def varAt (ret : Nat → Option ℚ) (t : Nat) : Option ℚ :=
  if 12 ≤ t then (seqOptions (trailWindow ret t)).map varQ else none

/-- Rolling volatility of one security at period t: the square root of the
rolling variance. Modelled from the spec: the per-security trailing-window
volatility inside `calc_std_12` (calc_Lewellen_2014 module, not under
src/). -/
def stdAt (sq : ℚ → ℝ) (ret : Nat → Option ℚ) (t : Nat) : Option ℝ :=
  (varAt ret t).map sq

/-- Rolling beta of one security against the index at period t: covariance
over index variance on the trailing window, missing on insufficient history,
any missing observation in either series, or zero index variance. Modelled
from the spec: the per-security rolling beta inside `calculate_rolling_beta`
(calc_Lewellen_2014 module, not under src/). -/
def betaAt (ret retI : Nat → Option ℚ) (t : Nat) : Option ℚ :=
  if 12 ≤ t then
    (seqOptions (trailWindow ret t)).bind (fun xs =>
      (seqOptions (trailWindow retI t)).bind (fun ys =>
        if varQ ys = 0 then none else some (covQ xs ys / varQ ys)))
  else none

/-- Return series of one security read off the merged panel: the retx field
of the row with the given permno and date, missing when no such row exists. -/
def panelRet (rows : List MergedRow) (p : Nat) : Nat → Option ℚ :=
  fun m =>
    match rows.find? (fun r => decide (r.permno = p ∧ r.date = m)) with
    | some r => r.retx
    | none => none

/-- Modelled from the spec: `calc_return_12_2` (calc_Lewellen_2014 module,
not under src/) computes the momentum column of the merged panel, one value
per row from that row's security and period. -/
def calc_return_12_2 (lg : ℚ → ℝ) (rows : List MergedRow) : List (Option ℝ) :=
  rows.map (fun r => momAt lg (panelRet rows r.permno) r.date)

/-- Daily return panel read off the daily CRSP table, as a function from
(security, day) to the possibly-missing return. -/
def dailyPanel (rows : List DRow) : Nat → Nat → Option ℚ :=
  fun p d =>
    match rows.find? (fun r => decide (r.permno = p ∧ r.day = d)) with
    | some r => r.ret
    | none => none

/-- Daily index return series read off the CRSP index table. -/
def indexPanel (rows : List IRow) : Nat → Option ℚ :=
  fun d =>
    match rows.find? (fun r => decide (r.day = d)) with
    | some r => r.ret
    | none => none

/-- Modelled from the spec: `calc_std_12` (calc_Lewellen_2014 module, not
under src/) computes each security's rolling volatility from the daily CRSP
panel alone. -/
def calc_std_12 (sq : ℚ → ℝ) (d : Nat → Nat → Option ℚ) :
    Nat → Nat → Option ℝ :=
  fun p t => stdAt sq (d p) t

/-- Modelled from the spec: `calculate_rolling_beta` (calc_Lewellen_2014
module, not under src/) computes each security's rolling beta from the daily
CRSP panel and the daily index panel alone. -/
def calculate_rolling_beta (d : Nat → Nat → Option ℚ)
    (idx : Nat → Option ℚ) : Nat → Nat → Option ℚ :=
  fun p t => betaAt (d p) idx t

/-- Constant stand-in for the natural logarithm, used by witnesses. -/
def lg0 : ℚ → ℝ := fun _ => 0

/-- Constant stand-in for the square root, used by witnesses and by the C6
counterexample. -/
def sq0 : ℚ → ℝ := fun _ => 0

/-- Everywhere-missing daily return panel. -/
def dnone : Nat → Nat → Option ℚ := fun _ _ => none

/-- Everywhere-missing daily index series. -/
def inone : Nat → Option ℚ := fun _ => none

/-- Book equity carried by a merged row: the be field of the attached
fundamentals observation, missing when no observation is attached or its
book equity is missing. -/
def rowBE (m : MergedRow) : Option ℚ := m.fund.bind (fun f => f.be)

/-- Log market equity of one merged row: log of price times shares
outstanding, missing when either operand is absent or non-positive.
Modelled from the spec: the row-wise arithmetic of `calc_log_size`
(calc_Lewellen_2014 module, not under src/), which maps this over the
merged panel; producing none in the guard case means no row ever raises. -/
def logSizeRow (lg : ℚ → ℝ) (m : MergedRow) : Option ℝ :=
  match m.prc, m.shrout with
  | some p, some s => if 0 < p ∧ 0 < s then some (lg (p * s)) else none
  | _, _ => none

/-- Log book-to-market of one merged row: log of book equity over market
equity, missing when either operand is absent or non-positive. Modelled
from the spec: the row-wise arithmetic of `calc_log_bm`
(calc_Lewellen_2014 module, not under src/). -/
def logBMRow (lg : ℚ → ℝ) (m : MergedRow) : Option ℝ :=
  match rowBE m, m.me with
  | some b, some v => if 0 < b ∧ 0 < v then some (lg (b / v)) else none
  | _, _ => none

/-- Modelled from the spec: `calc_log_size` computes the log-size column of
the merged panel, row by row. -/
def calc_log_size (lg : ℚ → ℝ) (rows : List MergedRow) : List (Option ℝ) :=
  rows.map (logSizeRow lg)

/-- Modelled from the spec: `calc_log_bm` computes the log book-to-market
column of the merged panel, row by row. -/
def calc_log_bm (lg : ℚ → ℝ) (rows : List MergedRow) : List (Option ℝ) :=
  rows.map (logBMRow lg)

/-- A possibly-missing operand is present and strictly positive. -/
def posPresent (o : Option ℚ) : Prop := ∃ x, o = some x ∧ 0 < x

/-- Security-period row of the worked example: price 8.11, shares
outstanding 13225. -/
def rowL : SecRow := ⟨91405, 100, some 0, some (811/100), some 13225⟩

/-- Merged row of the worked example, with the market-equity column filled
with 8.11 x 13225. -/
def mRowL : MergedRow :=
  ⟨91405, 100, some 0, some (811/100), some 13225, some (811/100 * 13225), none⟩

/-- Fundamentals observation with book equity 4, used to exercise the log
book-to-market positive case. -/
def bF : FundRow := ⟨9, 80, 90, none, none, none, some 4⟩

/-- Merged row with an attached fundamentals observation, used to exercise
the log book-to-market positive case. -/
def mRowB : MergedRow := ⟨2, 100, some 0, some 1, some 1, some 2, some bF⟩

/-- In-memory panels available once the fetch and merge steps have run: the
pivoted daily CRSP panel, the daily index series, the fundamentals panel,
the bridge table and the merged panel. -/
structure PanelData where
  crsp_d : Nat → Nat → Option ℚ
  index_d : Nat → Option ℚ
  comp : List FundRow
  links : List LinkRow
  merged : List MergedRow

/-- Output of one derived-variable transform: a per-row column of the merged
panel, or a (security, period) grid of reals or rationals. -/
inductive DOut : Type where
  | col (xs : List (Option ℝ))
  | grid (f : Nat → Nat → Option ℝ)
  | gridQ (f : Nat → Nat → Option ℚ)

/-- Workspace of the orchestration layer: the upstream panels together with
the named derived panels computed so far. -/
@[ext]
structure Workspace where
  panels : PanelData
  derived : String → Option DOut

/-- Run one derived-variable transform: read the upstream panels, store the
output under the transform's name, and leave the upstream panels untouched.
Modelled from the spec: each transform is a pure read of upstream panels
and does not mutate its inputs. -/
def applyTransform (n : String) (f : PanelData → DOut) (w : Workspace) :
    Workspace :=
  ⟨w.panels, fun m => if m = n then some (f w.panels) else w.derived m⟩

/-- The log-size transform as a workspace transform: reads the merged
panel. -/
def T_log_size (lg : ℚ → ℝ) : PanelData → DOut :=
  fun p => DOut.col (calc_log_size lg p.merged)

/-- The log book-to-market transform as a workspace transform: reads the
merged panel. -/
def T_log_bm (lg : ℚ → ℝ) : PanelData → DOut :=
  fun p => DOut.col (calc_log_bm lg p.merged)

/-- The momentum transform as a workspace transform: reads the merged
panel. -/
def T_return_12_2 (lg : ℚ → ℝ) : PanelData → DOut :=
  fun p => DOut.col (calc_return_12_2 lg p.merged)

/-- The rolling-volatility transform as a workspace transform: reads the
daily CRSP panel, as at its call site std_12 = calc_std_12(crsp_d). -/
def T_std_12 (sq : ℚ → ℝ) : PanelData → DOut :=
  fun p => DOut.grid (calc_std_12 sq p.crsp_d)

/-- The rolling-beta transform as a workspace transform: reads the daily
CRSP panel and the daily index panel, as at its call site
betas = calculate_rolling_beta(crsp_d, crsp_index_d). -/
def T_rolling_beta : PanelData → DOut :=
  fun p => DOut.gridQ (calculate_rolling_beta p.crsp_d p.index_d)

/-- Rolling betas computed from a panel state: a function of the daily CRSP
panel and the daily index panel only. -/
def betasOf (p : PanelData) : Nat → Nat → Option ℚ :=
  calculate_rolling_beta p.crsp_d p.index_d

/-- Rolling volatility computed from a panel state: a function of the daily
CRSP panel only. -/
def stdOf (sq : ℚ → ℝ) (p : PanelData) : Nat → Nat → Option ℝ :=
  calc_std_12 sq p.crsp_d

/-- Panel state with no data at all; its daily panel has no observations. -/
def pdA : PanelData := ⟨dnone, inone, [], [], []⟩

/-- Panel state whose daily CRSP panel has a return of 0 for every security
and day, and whose other panels equal those of pdA. -/
def pdB : PanelData := ⟨fun _ _ => some 0, inone, [], [], []⟩

/-- Panel state with the same (empty) daily panels as pdA but a non-empty
fundamentals panel and merged panel. -/
def pdC : PanelData := ⟨dnone, inone, [bF], [], [mRowB]⟩

/-- Name under which the witness workspace stores the log-size output. -/
def nSize : String := "size"

/-- Name under which the witness workspace stores the beta output. -/
def nBeta : String := "beta"

/-- Cache directory of the pipeline: one optional slot per dataset file;
a slot holds the file's contents when the file exists. -/
structure Cache where
  crsp_d : Option (List DRow)
  crsp_m : Option (List SecRow)
  comp : Option (List FundRow)
  link : Option (List LinkRow)
  index_d : Option (List IRow)

/-- The remote data service as seen by the pipeline: one query per dataset,
scoped to a date range; the link-table query takes no date range. -/
structure Remotes where
  crsp_d : Nat → Nat → List DRow
  crsp_m : Nat → Nat → List SecRow
  comp : Nat → Nat → List FundRow
  link : List LinkRow
  index_d : Nat → Nat → List IRow

/-- Per-dataset normalization data: the per-row renaming and date-coercion
map and the duplicate-dropping key of each dataset. -/
structure Norms where
  dRow : DRow → DRow
  dKey : DRow → Nat × Nat
  mRow : SecRow → SecRow
  mKey : SecRow → Nat × Nat
  cRow : FundRow → FundRow
  cKey : FundRow → Nat × Nat
  lRow : LinkRow → LinkRow
  lKey : LinkRow → Nat × Nat × Nat
  iRow : IRow → IRow
  iKey : IRow → Nat

/-- Output of one full pipeline run: the five fetched tables, the merged
panel, the derived panels, the cache as the run leaves it, and whether any
fetch contacted the remote service. -/
structure RunOut where
  crsp_d : List DRow
  crsp_m : List SecRow
  comp : List FundRow
  link : List LinkRow
  index_d : List IRow
  merged : List MergedRow
  log_size : List (Option ℝ)
  log_bm : List (Option ℝ)
  return_12_2 : List (Option ℝ)
  betas : Nat → Nat → Option ℚ
  std_12 : Nat → Nat → Option ℝ
  cacheAfter : Cache
  network : Bool

/-- Modelled from the spec: one full pipeline run as orchestrated by the
get_data notebook: fetch the five datasets (cache-or-remote), add market
equity, report dates and book equity, merge, and compute the derived
panels. -/
def runPipeline (s e lag : Nat) (lg sq : ℚ → ℝ) (c : Cache) (R : Remotes)
    (N : Norms) : RunOut :=
  let qd := pull_CRSP_stock c.crsp_d R.crsp_d N.dRow N.dKey s e
  let qm := pull_CRSP_stock c.crsp_m R.crsp_m N.mRow N.mKey s e
  let qc := pull_Compustat c.comp R.comp N.cRow N.cKey s e
  let ql := pull_CRSP_Comp_link_table c.link R.link N.lRow N.lKey
  let qi := pull_CRSP_index c.index_d R.index_d N.iRow N.iKey s e
  let crsp := calculate_market_equity qm.table
  let compR := calc_book_equity (add_report_date lag qc.table)
  let merged := merge_CRSP_and_Compustat crsp compR ql.table
  { crsp_d := qd.table
    crsp_m := qm.table
    comp := qc.table
    link := ql.table
    index_d := qi.table
    merged := merged
    log_size := calc_log_size lg merged
    log_bm := calc_log_bm lg merged
    return_12_2 := calc_return_12_2 lg merged
    betas := calculate_rolling_beta (dailyPanel qd.table) (indexPanel qi.table)
    std_12 := calc_std_12 sq (dailyPanel qd.table)
    cacheAfter := ⟨qd.slot, qm.slot, qc.slot, ql.slot, qi.slot⟩
    network := qd.usedNetwork || qm.usedNetwork || qc.usedNetwork ||
      ql.usedNetwork || qi.usedNetwork }

/-- A second pipeline run over the cache directory as the first run left
it, with configuration and remote service unchanged. -/
def runTwice (s e lag : Nat) (lg sq : ℚ → ℝ) (c : Cache) (R : Remotes)
    (N : Norms) : RunOut :=
  runPipeline s e lag lg sq (runPipeline s e lag lg sq c R N).cacheAfter R N

/-- Warm concrete cache used in C3's witness: every file present. -/
def wCache : Cache := ⟨some [], some [], some [], some [], some []⟩

/-- Concrete remote service used in C3's witness. -/
def wRem : Remotes := ⟨fun _ _ => [], fun _ _ => [], fun _ _ => [], [],
  fun _ _ => []⟩

/-- Concrete normalization data used in the pipeline witnesses. -/
def wNorms : Norms :=
  ⟨id, fun r => (r.permno, r.day), id, fun r => (r.permno, r.date),
    id, fun r => (r.gvkey, r.datadate), id,
    fun r => (r.permno, r.gvkey, r.linkdt), id, fun r => r.day⟩

/-- Concrete fundamentals row used in C1's witness: report date 95. -/
def wF : FundRow := ⟨7, 85, 95, none, none, none, some 4⟩

/-- Concrete merged row used in C1's witness. -/
def wM : MergedRow := ⟨1, 100, some 0, some 5, some 10, some 50, some wF⟩

/-- Concrete monthly CRSP panel used in C1's witness. -/
def wCrsp : List MeRow := [⟨1, 100, some 0, some 5, some 10, some 50⟩]

/-- Concrete fundamentals panel used in C1's witness: two observations for
firm 7, report dates 90 and 95, both at most 100. -/
def wComp : List FundRow :=
  [⟨7, 80, 90, none, none, none, some 3⟩, wF]

/-- Concrete link table used in C1's witness. -/
def wCcm : List LinkRow := [⟨1, 7, 0, 200⟩]

theorem mem_dropDupKeysAux {β κ : Type} [DecidableEq κ] {key : β → κ}
    {x : β} : ∀ {seen : List κ} {l : List β},
    x ∈ dropDupKeysAux key seen l → x ∈ l := by
  intro seen l
  induction l generalizing seen with
  | nil => simp [dropDupKeysAux]
  | cons a l ih =>
    intro h
    rw [dropDupKeysAux] at h
    split_ifs at h with hs
    · exact List.mem_cons_of_mem a (ih h)
    · rcases List.mem_cons.mp h with h | h
      · simp [h]
      · exact List.mem_cons_of_mem a (ih h)

theorem dropDupKeysAux_key_notin {β κ : Type} [DecidableEq κ] {key : β → κ}
    {x : β} : ∀ {seen : List κ} {l : List β},
    x ∈ dropDupKeysAux key seen l → key x ∉ seen := by
  intro seen l
  induction l generalizing seen with
  | nil => simp [dropDupKeysAux]
  | cons a l ih =>
    intro h
    rw [dropDupKeysAux] at h
    split_ifs at h with hs
    · exact ih h
    · rcases List.mem_cons.mp h with h | h
      · subst h; exact hs
      · intro hmem
        exact ih h (List.mem_cons_of_mem _ hmem)

theorem dropDupKeysAux_keys_nodup {β κ : Type} [DecidableEq κ] {key : β → κ} :
    ∀ {seen : List κ} {l : List β},
    ((dropDupKeysAux key seen l).map key).Nodup := by
  intro seen l
  induction l generalizing seen with
  | nil => simp [dropDupKeysAux]
  | cons a l ih =>
    rw [dropDupKeysAux]
    split_ifs with hs
    · exact ih
    · rw [List.map_cons, List.nodup_cons]
      refine ⟨?_, ih⟩
      intro hmem
      rcases List.mem_map.mp hmem with ⟨y, hy, hky⟩
      exact dropDupKeysAux_key_notin hy (by simp [hky])

/-- Keys of a normalized table are pairwise distinct: the duplicate-key drop
really drops duplicates. -/
theorem normalizeTable_keys_nodup {β κ : Type} [DecidableEq κ]
    (normRow : β → β) (key : β → κ) (t : List β) :
    ((normalizeTable normRow key t).map key).Nodup :=
  dropDupKeysAux_keys_nodup

/-- C2: each fetch operation returns the cache file's contents unchanged,
without contacting the remote service, exactly when the file exists;
otherwise it queries the remote service for the date range, normalizes
(per-row renaming and date coercion, then duplicate-key removal, after which
the keys are pairwise distinct), writes the result to the cache, and returns
it; presence of the file is the sole condition separating the branches. -/
theorem C2_fetch_cache_or_remote {β κ : Type} [DecidableEq κ]
    (slot : Option (List β)) (remote : Nat → Nat → List β)
    (remoteLink : List β) (normRow : β → β) (key : β → κ) (s e : Nat) :
    (∀ t, slot = some t →
      pull_CRSP_stock slot remote normRow key s e = ⟨t, some t, false⟩ ∧
      pull_Compustat slot remote normRow key s e = ⟨t, some t, false⟩ ∧
      pull_CRSP_index slot remote normRow key s e = ⟨t, some t, false⟩ ∧
      pull_CRSP_Comp_link_table slot remoteLink normRow key = ⟨t, some t, false⟩) ∧
    (slot = none →
      pull_CRSP_stock slot remote normRow key s e =
        ⟨normalizeTable normRow key (remote s e),
          some (normalizeTable normRow key (remote s e)), true⟩ ∧
      pull_Compustat slot remote normRow key s e =
        ⟨normalizeTable normRow key (remote s e),
          some (normalizeTable normRow key (remote s e)), true⟩ ∧
      pull_CRSP_index slot remote normRow key s e =
        ⟨normalizeTable normRow key (remote s e),
          some (normalizeTable normRow key (remote s e)), true⟩ ∧
      pull_CRSP_Comp_link_table slot remoteLink normRow key =
        ⟨normalizeTable normRow key remoteLink,
          some (normalizeTable normRow key remoteLink), true⟩) ∧
    ((pull_CRSP_stock slot remote normRow key s e).usedNetwork = true ↔
      slot = none) ∧
    ((normalizeTable normRow key (remote s e)).map key).Nodup := by
  refine ⟨?_, ?_, ?_, normalizeTable_keys_nodup _ _ _⟩
  · intro t ht
    subst ht
    exact ⟨rfl, rfl, rfl, rfl⟩
  · intro ht
    subst ht
    exact ⟨rfl, rfl, rfl, rfl⟩
  · cases slot <;> simp [pull_CRSP_stock, pull_dataset]

/-- Witness for C2 at concrete inputs, on both sides of the branch: a hit on
a cache holding [5, 5] returns it unchanged with no network use, and a miss
returns the normalized remote table [1, 2, 3] and writes it to the cache. -/
theorem C2_fetch_cache_or_remote_witness :
    pull_CRSP_stock (some wTab) wRemote id id 0 10 = ⟨wTab, some wTab, false⟩ ∧
    pull_CRSP_Comp_link_table (some wTab) wTab id (id : Nat → Nat) =
      ⟨wTab, some wTab, false⟩ ∧
    pull_CRSP_stock (none : Option (List Nat)) wRemote id id 0 10 =
      ⟨normalizeTable id id (wRemote 0 10),
        some (normalizeTable id id (wRemote 0 10)), true⟩ ∧
    ((pull_CRSP_stock (none : Option (List Nat)) wRemote id id 0 10).usedNetwork
      = true ↔ (none : Option (List Nat)) = none) :=
  ⟨(((C2_fetch_cache_or_remote (some wTab) wRemote wTab id id 0 10).1 wTab rfl).1),
    (((C2_fetch_cache_or_remote (some wTab) wRemote wTab id id 0 10).1 wTab rfl).2.2.2),
    (((C2_fetch_cache_or_remote none wRemote wTab id id 0 10).2.1 rfl).1),
    ((C2_fetch_cache_or_remote none wRemote wTab id id 0 10).2.2.1)⟩

/-- C7: calling a fetch operation again, with the cache as the previous call
left it, returns a table identical to the previous call's table, and the
second call never contacts the remote service. -/
theorem C7_fetch_idempotent {β κ : Type} [DecidableEq κ]
    (slot : Option (List β)) (remote : Nat → Nat → List β)
    (remoteLink : List β) (normRow : β → β) (key : β → κ) (s e : Nat) :
    ((pull_CRSP_stock (pull_CRSP_stock slot remote normRow key s e).slot
        remote normRow key s e).table
      = (pull_CRSP_stock slot remote normRow key s e).table ∧
     (pull_CRSP_stock (pull_CRSP_stock slot remote normRow key s e).slot
        remote normRow key s e).usedNetwork = false) ∧
    ((pull_Compustat (pull_Compustat slot remote normRow key s e).slot
        remote normRow key s e).table
      = (pull_Compustat slot remote normRow key s e).table ∧
     (pull_Compustat (pull_Compustat slot remote normRow key s e).slot
        remote normRow key s e).usedNetwork = false) ∧
    ((pull_CRSP_index (pull_CRSP_index slot remote normRow key s e).slot
        remote normRow key s e).table
      = (pull_CRSP_index slot remote normRow key s e).table ∧
     (pull_CRSP_index (pull_CRSP_index slot remote normRow key s e).slot
        remote normRow key s e).usedNetwork = false) ∧
    ((pull_CRSP_Comp_link_table
        (pull_CRSP_Comp_link_table slot remoteLink normRow key).slot
        remoteLink normRow key).table
      = (pull_CRSP_Comp_link_table slot remoteLink normRow key).table ∧
     (pull_CRSP_Comp_link_table
        (pull_CRSP_Comp_link_table slot remoteLink normRow key).slot
        remoteLink normRow key).usedNetwork = false) := by
  cases slot <;>
    exact ⟨⟨rfl, rfl⟩, ⟨rfl, rfl⟩, ⟨rfl, rfl⟩, ⟨rfl, rfl⟩⟩

theorem seqOptions_isSome {α : Type} (l : List (Option α)) :
    (seqOptions l).isSome = l.all Option.isSome := by
  induction l with
  | nil => rfl
  | cons o xs ih =>
    cases o with
    | none => simp [seqOptions]
    | some x => simp [seqOptions, ih]

theorem seqOptions_eq_none_of_not_all {α : Type} {l : List (Option α)}
    (h : ¬ l.all Option.isSome = true) : seqOptions l = none := by
  cases hs : seqOptions l with
  | none => rfl
  | some v =>
    exfalso
    apply h
    rw [← seqOptions_isSome l, hs]
    rfl

theorem momWindow_congr {r r' : Nat → Option ℚ} {t : Nat} (ht : 12 ≤ t)
    (h : ∀ m, m < t → r m = r' m) : momWindow r t = momWindow r' t := by
  unfold momWindow
  apply List.map_congr_left
  intro i hi
  have hi' : i < 11 := List.mem_range.mp hi
  exact h _ (by omega)

theorem trailWindow_congr {r r' : Nat → Option ℚ} {t : Nat} (ht : 12 ≤ t)
    (h : ∀ m, m < t → r m = r' m) : trailWindow r t = trailWindow r' t := by
  unfold trailWindow
  apply List.map_congr_left
  intro i hi
  have hi' : i < 12 := List.mem_range.mp hi
  exact h _ (by omega)

/-- C4: each trailing-window computation (momentum, rolling volatility,
rolling beta) is missing whenever the security has fewer than the required
trailing observations (too few prior periods, or a missing observation in
the window), and its value at period t depends only on observations at
periods strictly before t; all three are total functions, so no input
raises. -/
theorem C4_trailing_windows (lg sq : ℚ → ℝ) (rows : List MergedRow)
    (d d' : Nat → Nat → Option ℚ) (idx idx' : Nat → Option ℚ) (p t : Nat) :
    calc_return_12_2 lg rows
        = rows.map (fun r => momAt lg (panelRet rows r.permno) r.date) ∧
    (¬ (12 ≤ t ∧ (momWindow (panelRet rows p) t).all Option.isSome = true) →
      momAt lg (panelRet rows p) t = none) ∧
    (¬ (12 ≤ t ∧ (trailWindow (d p) t).all Option.isSome = true) →
      calc_std_12 sq d p t = none) ∧
    (¬ (12 ≤ t ∧ (trailWindow (d p) t).all Option.isSome = true ∧
        (trailWindow idx t).all Option.isSome = true) →
      calculate_rolling_beta d idx p t = none) ∧
    ((∀ m, m < t → d p m = d' p m) → momAt lg (d p) t = momAt lg (d' p) t) ∧
    ((∀ m, m < t → d p m = d' p m) →
      calc_std_12 sq d p t = calc_std_12 sq d' p t) ∧
    ((∀ m, m < t → d p m = d' p m) → (∀ m, m < t → idx m = idx' m) →
      calculate_rolling_beta d idx p t = calculate_rolling_beta d' idx' p t) := by
  refine ⟨rfl, ?_, ?_, ?_, ?_, ?_, ?_⟩
  · intro h
    rw [momAt]
    split_ifs with ht
    · rw [seqOptions_eq_none_of_not_all (fun ha => h ⟨ht, ha⟩)]
      rfl
    · rfl
  · intro h
    show stdAt sq (d p) t = none
    rw [stdAt, varAt]
    split_ifs with ht
    · rw [seqOptions_eq_none_of_not_all (fun ha => h ⟨ht, ha⟩)]
      rfl
    · rfl
  · intro h
    show betaAt (d p) idx t = none
    rw [betaAt]
    split_ifs with ht
    · by_cases ha : (trailWindow (d p) t).all Option.isSome = true
      · by_cases hb : (trailWindow idx t).all Option.isSome = true
        · exact absurd ⟨ht, ha, hb⟩ h
        · rw [seqOptions_eq_none_of_not_all hb]
          cases seqOptions (trailWindow (d p) t) <;> rfl
      · rw [seqOptions_eq_none_of_not_all ha]
        rfl
    · rfl
  · intro h
    rw [momAt, momAt]
    split_ifs with ht
    · rw [momWindow_congr ht h]
    · rfl
  · intro h
    show stdAt sq (d p) t = stdAt sq (d' p) t
    rw [stdAt, stdAt, varAt, varAt]
    split_ifs with ht
    · rw [trailWindow_congr ht h]
    · rfl
  · intro h hi
    show betaAt (d p) idx t = betaAt (d' p) idx' t
    rw [betaAt, betaAt]
    split_ifs with ht
    · rw [trailWindow_congr ht h, trailWindow_congr ht hi]
    · rfl

/-- Witness for C4 at concrete inputs: at period 5 (fewer than 12 prior
periods) momentum, volatility and beta are all missing, and the
strictly-before dependence instantiated at equal panels gives equal
outputs. -/
theorem C4_trailing_windows_witness :
    momAt lg0 (panelRet [] 0) 5 = none ∧
    calc_std_12 sq0 dnone 0 5 = none ∧
    calculate_rolling_beta dnone inone 0 5 = none ∧
    momAt lg0 (dnone 0) 5 = momAt lg0 (dnone 0) 5 ∧
    calculate_rolling_beta dnone inone 0 5
      = calculate_rolling_beta dnone inone 0 5 := by
  have h := C4_trailing_windows lg0 sq0 [] dnone dnone inone inone 0 5
  exact ⟨h.2.1 (by decide), h.2.2.1 (by decide), h.2.2.2.1 (by decide),
    h.2.2.2.2.1 (fun _ _ => rfl),
    h.2.2.2.2.2.2 (fun _ _ => rfl) (fun _ _ => rfl)⟩

theorem posPresent_some (x : ℚ) : posPresent (some x) ↔ 0 < x := by
  constructor
  · rintro ⟨y, hy, h⟩
    injection hy with e
    exact e ▸ h
  · exact fun h => ⟨x, rfl, h⟩

theorem posPresent_none : ¬ posPresent none := by
  rintro ⟨y, hy, _⟩
  simp at hy

theorem logSizeRow_none_iff (lg : ℚ → ℝ) (m : MergedRow) :
    logSizeRow lg m = none ↔ ¬ (posPresent m.prc ∧ posPresent m.shrout) := by
  cases hp : m.prc with
  | none => simp [logSizeRow, hp, posPresent_none]
  | some p =>
    cases hs : m.shrout with
    | none => simp [logSizeRow, hp, hs, posPresent_none]
    | some s =>
      simp only [logSizeRow, hp, hs, posPresent_some]
      split_ifs with hc
      · simp [hc]
      · simp [hc]

theorem logBMRow_none_iff (lg : ℚ → ℝ) (m : MergedRow) :
    logBMRow lg m = none ↔ ¬ (posPresent (rowBE m) ∧ posPresent m.me) := by
  cases hb : rowBE m with
  | none => simp [logBMRow, hb, posPresent_none]
  | some b =>
    cases hv : m.me with
    | none => simp [logBMRow, hb, hv, posPresent_none]
    | some v =>
      simp only [logBMRow, hb, hv, posPresent_some]
      split_ifs with hc
      · simp [hc]
      · simp [hc]

/-- C5: log-size and log book-to-market are missing exactly when an operand
(price, shares outstanding, book equity or market equity) is absent or
non-positive, and in the guard case the row-wise functions return the
missing marker rather than raising; when all operands are present and
positive they return the log of the product, respectively of the ratio. -/
theorem C5_log_guards (lg : ℚ → ℝ) (rows : List MergedRow) (m : MergedRow) :
    calc_log_size lg rows = rows.map (logSizeRow lg) ∧
    calc_log_bm lg rows = rows.map (logBMRow lg) ∧
    (logSizeRow lg m = none ↔ ¬ (posPresent m.prc ∧ posPresent m.shrout)) ∧
    (∀ p s, m.prc = some p → m.shrout = some s → 0 < p → 0 < s →
      logSizeRow lg m = some (lg (p * s))) ∧
    (logBMRow lg m = none ↔ ¬ (posPresent (rowBE m) ∧ posPresent m.me)) ∧
    (∀ b v, rowBE m = some b → m.me = some v → 0 < b → 0 < v →
      logBMRow lg m = some (lg (b / v))) := by
  refine ⟨rfl, rfl, logSizeRow_none_iff lg m, ?_, logBMRow_none_iff lg m, ?_⟩
  · intro p s hp hs h1 h2
    simp [logSizeRow, hp, hs, h1, h2]
  · intro b v hb hv h1 h2
    simp [logBMRow, hb, hv, h1, h2]

/-- Witness for C5 at concrete rows: the worked-example row has all operands
positive and log-size is the log of the product; for a row with book equity
4 and market equity 2, log book-to-market is the log of 2. -/
theorem C5_log_guards_witness :
    (logSizeRow lg0 mRowL = none ↔
      ¬ (posPresent mRowL.prc ∧ posPresent mRowL.shrout)) ∧
    logSizeRow lg0 mRowL = some (lg0 (811/100 * 13225)) ∧
    (logBMRow lg0 mRowB = none ↔
      ¬ (posPresent (rowBE mRowB) ∧ posPresent mRowB.me)) ∧
    logBMRow lg0 mRowB = some (lg0 (4 / 2)) := by
  have h := C5_log_guards lg0 [mRowL] mRowL
  have h' := C5_log_guards lg0 [mRowB] mRowB
  exact ⟨h.2.2.1, h.2.2.2.1 _ _ rfl rfl (by norm_num) (by norm_num),
    h'.2.2.2.2.1, h'.2.2.2.2.2 4 2 rfl rfl (by norm_num) (by norm_num)⟩

/-- C8: for the worked-example row with price 8.11 and shares outstanding
13225, the market-equity transform attaches 8.11 x 13225, and log-size --
with the log parameter instantiated by the natural logarithm on casts -- is
the natural logarithm of that product. -/
theorem C8_example_market_equity :
    calculate_market_equity [rowL] =
      [⟨91405, 100, some 0, some (811/100), some 13225,
        some (811/100 * 13225)⟩] ∧
    logSizeRow (fun q => Real.log (q : ℝ)) mRowL =
      some (Real.log (((811/100 * 13225 : ℚ) : ℝ))) ∧
    ((811/100 * 13225 : ℚ) : ℝ) = 8.11 * 13225 := by
  refine ⟨by simp [calculate_market_equity, marketEquity, rowL], ?_,
    by push_cast; norm_num⟩
  simp only [logSizeRow, mRowL]
  norm_num

/-- C9: rolling beta and rolling volatility read only the daily security
panel (and, for beta, the daily index panel): two panel states with equal
daily panels give equal outputs whatever their fundamentals, bridge, or
merged panels hold, so both are well-defined without the merge step. -/
theorem C9_daily_panels_only (sq : ℚ → ℝ) (p₁ p₂ : PanelData)
    (hd : p₁.crsp_d = p₂.crsp_d) (hi : p₁.index_d = p₂.index_d) :
    betasOf p₁ = betasOf p₂ ∧ stdOf sq p₁ = stdOf sq p₂ := by
  unfold betasOf stdOf
  rw [hd, hi]
  exact ⟨rfl, rfl⟩

/-- Witness for C9: pdA and pdC share their daily panels but differ in the
fundamentals and merged panels; betas and volatilities agree. -/
theorem C9_daily_panels_only_witness :
    betasOf pdA = betasOf pdC ∧ stdOf sq0 pdA = stdOf sq0 pdC :=
  C9_daily_panels_only sq0 pdA pdC rfl rfl

/-- Counterexample to C6 as stated: the rolling-volatility transform's
output is not a function of the merged panel. The panel states pdA and pdB
have equal (empty) merged panels, yet calc_std_12 differs on them: at
security 0 and period 12 it is missing for pdA and a computed value for
pdB, because the two daily CRSP panels differ. -/
theorem C6_std_12_not_merged_cex :
    pdA.merged = pdB.merged ∧ T_std_12 sq0 pdA ≠ T_std_12 sq0 pdB := by
  refine ⟨rfl, ?_⟩
  intro h
  have h' : DOut.grid (calc_std_12 sq0 pdA.crsp_d)
      = DOut.grid (calc_std_12 sq0 pdB.crsp_d) := h
  injection h' with h2
  have h3 := congrFun (congrFun h2 0) 12
  have hA : calc_std_12 sq0 pdA.crsp_d 0 12 = none := rfl
  have hB : calc_std_12 sq0 pdB.crsp_d 0 12 = some 0 := rfl
  rw [hA, hB] at h3
  exact Option.noConfusion h3

/-- C6 amended: every derived-variable transform is side-effect free and
leaves the upstream panels unchanged, its output is a function of the
upstream panels it reads (the merged panel for the cross-sectional and
accounting transforms, the daily CRSP and index panels for rolling
volatility and beta -- not the merged panel alone), and any two transforms
stored under distinct names commute, each computing the same output in
either order. -/
theorem C6_transforms_pure_commute (n₁ n₂ : String)
    (f₁ f₂ : PanelData → DOut) (w w' : Workspace) :
    (applyTransform n₁ f₁ w).panels = w.panels ∧
    (w.panels = w'.panels → f₁ w.panels = f₁ w'.panels) ∧
    (n₁ ≠ n₂ →
      applyTransform n₁ f₁ (applyTransform n₂ f₂ w)
        = applyTransform n₂ f₂ (applyTransform n₁ f₁ w) ∧
      (applyTransform n₁ f₁ (applyTransform n₂ f₂ w)).derived n₁
        = some (f₁ w.panels) ∧
      (applyTransform n₁ f₁ (applyTransform n₂ f₂ w)).derived n₂
        = some (f₂ w.panels)) := by
  refine ⟨rfl, fun h => by rw [h], fun hne => ⟨?_, ?_, ?_⟩⟩
  · apply Workspace.ext
    · rfl
    · funext m
      by_cases h1 : m = n₁ <;> by_cases h2 : m = n₂
      · subst h1; exact absurd h2 hne
      · subst h1; simp [applyTransform, h2]
      · subst h2; simp [applyTransform, h1]
      · simp [applyTransform, h1, h2]
  · simp [applyTransform]
  · have hne' : ¬ n₂ = n₁ := fun h => hne h.symm
    simp [applyTransform, hne']

/-- Witness for C6's amended statement: two concrete transforms under the
distinct names size and beta commute on the pdC workspace. -/
theorem C6_transforms_pure_commute_witness :
    (applyTransform nSize (T_log_size lg0) ⟨pdC, fun _ => none⟩).panels
      = (⟨pdC, fun _ => none⟩ : Workspace).panels ∧
    (applyTransform nSize (T_log_size lg0)
        (applyTransform nBeta T_rolling_beta ⟨pdC, fun _ => none⟩)
      = applyTransform nBeta T_rolling_beta
        (applyTransform nSize (T_log_size lg0) ⟨pdC, fun _ => none⟩) ∧
      (applyTransform nSize (T_log_size lg0)
        (applyTransform nBeta T_rolling_beta ⟨pdC, fun _ => none⟩)).derived
          nSize = some (T_log_size lg0 pdC) ∧
      (applyTransform nSize (T_log_size lg0)
        (applyTransform nBeta T_rolling_beta ⟨pdC, fun _ => none⟩)).derived
          nBeta = some (T_rolling_beta pdC)) := by
  have h := C6_transforms_pure_commute nSize nBeta (T_log_size lg0)
    T_rolling_beta ⟨pdC, fun _ => none⟩ ⟨pdC, fun _ => none⟩
  exact ⟨h.1, h.2.2 (by decide)⟩

/-- C3: re-running the pipeline over the cache directory the first run left
behind yields identical fetched tables and byte-identical derived panels,
the second run performs no network I/O, and a first run over a warm cache
(every cache file present) performs no network I/O either. -/
theorem C3_pipeline_idempotent_no_network (s e lag : Nat) (lg sq : ℚ → ℝ)
    (c : Cache) (R : Remotes) (N : Norms) :
    ((runTwice s e lag lg sq c R N).merged
        = (runPipeline s e lag lg sq c R N).merged ∧
      (runTwice s e lag lg sq c R N).log_size
        = (runPipeline s e lag lg sq c R N).log_size ∧
      (runTwice s e lag lg sq c R N).log_bm
        = (runPipeline s e lag lg sq c R N).log_bm ∧
      (runTwice s e lag lg sq c R N).return_12_2
        = (runPipeline s e lag lg sq c R N).return_12_2 ∧
      (runTwice s e lag lg sq c R N).betas
        = (runPipeline s e lag lg sq c R N).betas ∧
      (runTwice s e lag lg sq c R N).std_12
        = (runPipeline s e lag lg sq c R N).std_12 ∧
      (runTwice s e lag lg sq c R N).cacheAfter
        = (runPipeline s e lag lg sq c R N).cacheAfter ∧
      (runTwice s e lag lg sq c R N).network = false) ∧
    (c.crsp_d.isSome = true ∧ c.crsp_m.isSome = true ∧
        c.comp.isSome = true ∧ c.link.isSome = true ∧
        c.index_d.isSome = true →
      (runPipeline s e lag lg sq c R N).network = false) := by
  rcases c with ⟨cd, cm, cc, cl, ci⟩
  constructor
  · cases cd <;> cases cm <;> cases cc <;> cases cl <;> cases ci <;>
      exact ⟨rfl, rfl, rfl, rfl, rfl, rfl, rfl, rfl⟩
  · rintro ⟨h1, h2, h3, h4, h5⟩
    rw [Option.isSome_iff_exists] at h1 h2 h3 h4 h5
    obtain ⟨td, rfl⟩ := h1
    obtain ⟨tm, rfl⟩ := h2
    obtain ⟨tc, rfl⟩ := h3
    obtain ⟨tl, rfl⟩ := h4
    obtain ⟨ti, rfl⟩ := h5
    rfl

/-- Witness for C3 at a concrete warm cache: re-running yields identical
derived panels and the warm first run performs no network I/O. -/
theorem C3_pipeline_idempotent_no_network_witness :
    (runTwice 0 9 4 lg0 sq0 wCache wRem wNorms).merged
        = (runPipeline 0 9 4 lg0 sq0 wCache wRem wNorms).merged ∧
      (runPipeline 0 9 4 lg0 sq0 wCache wRem wNorms).network = false := by
  have h := C3_pipeline_idempotent_no_network 0 9 4 lg0 sq0 wCache wRem wNorms
  exact ⟨h.1.1, h.2 ⟨rfl, rfl, rfl, rfl, rfl⟩⟩

/-- C10: the link-table fetch takes no date-range parameters, so the bridge
table a pipeline run obtains, and the cache it leaves for it, are the same
whatever the configured start and end dates. -/
theorem C10_link_table_unscoped (s₁ e₁ s₂ e₂ lag : Nat) (lg sq : ℚ → ℝ)
    (c : Cache) (R : Remotes) (N : Norms) :
    (runPipeline s₁ e₁ lag lg sq c R N).link
        = (runPipeline s₂ e₂ lag lg sq c R N).link ∧
      (runPipeline s₁ e₁ lag lg sq c R N).cacheAfter.link
        = (runPipeline s₂ e₂ lag lg sq c R N).cacheAfter.link :=
  ⟨rfl, rfl⟩

theorem pickBetter_ne_none (f : FundRow) (o : Option FundRow) :
    pickBetter f o ≠ none := by
  cases o with
  | none => simp [pickBetter]
  | some g => simp only [pickBetter]; split_ifs <;> simp

theorem pickLatest_mem {l : List FundRow} {f : FundRow}
    (h : pickLatest l = some f) : f ∈ l := by
  induction l with
  | nil => simp [pickLatest] at h
  | cons a l ih =>
    rw [pickLatest] at h
    cases hl : pickLatest l with
    | none => rw [hl] at h; simp [pickBetter] at h; simp [h]
    | some g =>
      rw [hl] at h
      simp only [pickBetter] at h
      split_ifs at h with hc
      · simp only [Option.some.injEq] at h
        exact List.mem_cons_of_mem a (ih (h ▸ hl))
      · simp only [Option.some.injEq] at h
        simp [h]

theorem pickLatest_isMax {l : List FundRow} : ∀ {f : FundRow},
    pickLatest l = some f → ∀ g ∈ l, g.report_date ≤ f.report_date := by
  induction l with
  | nil => intro f h; simp [pickLatest] at h
  | cons a l ih =>
    intro f h
    rw [pickLatest] at h
    cases hl : pickLatest l with
    | none =>
      rw [hl] at h
      simp [pickBetter] at h
      have hl' : l = [] := by
        cases l with
        | nil => rfl
        | cons b l => exact absurd hl (by rw [pickLatest]; exact pickBetter_ne_none b _)
      subst hl'
      simp [← h]
    | some g =>
      rw [hl] at h
      simp only [pickBetter] at h
      split_ifs at h with hc
      · simp only [Option.some.injEq] at h
        intro x hx
        rcases List.mem_cons.mp hx with hx | hx
        · subst hx; exact Nat.le_of_lt (h ▸ hc)
        · exact ih (h ▸ hl) x hx
      · simp only [Option.some.injEq] at h
        intro x hx
        rcases List.mem_cons.mp hx with hx | hx
        · subst hx; simp [← h]
        · exact le_trans (ih hl x hx) (h ▸ Nat.le_of_not_lt hc)

theorem mem_fundCandidates_report_le {comp : List FundRow} {ccm : List LinkRow}
    {p d : Nat} {f : FundRow} (h : f ∈ fundCandidates comp ccm p d) :
    f.report_date ≤ d := by
  have := (List.mem_filter.mp h).2
  simp only [Bool.and_eq_true, decide_eq_true_eq] at this
  exact this.1

/-- C1: every merged row's attached fundamentals observation has report date
at most the row's date (no look-ahead), and it is the most recent among all
fundamentals observations available for that security on that date. -/
theorem C1_merge_no_lookahead (crsp : List MeRow) (comp : List FundRow)
    (ccm : List LinkRow) (m : MergedRow) (f : FundRow)
    (hm : m ∈ merge_CRSP_and_Compustat crsp comp ccm) (hf : m.fund = some f) :
    f.report_date ≤ m.date ∧
      f ∈ fundCandidates comp ccm m.permno m.date ∧
      ∀ g ∈ fundCandidates comp ccm m.permno m.date,
        g.report_date ≤ f.report_date := by
  rcases List.mem_map.mp hm with ⟨r, hr, rfl⟩
  simp only at hf
  refine ⟨mem_fundCandidates_report_le (pickLatest_mem hf), pickLatest_mem hf,
    pickLatest_isMax hf⟩

/-- Witness for C1 at a concrete two-observation instance: the attached
observation is the one with report date 95. -/
theorem C1_merge_no_lookahead_witness :
    wF.report_date ≤ wM.date ∧
      wF ∈ fundCandidates wComp wCcm wM.permno wM.date ∧
      ∀ g ∈ fundCandidates wComp wCcm wM.permno wM.date,
        g.report_date ≤ wF.report_date :=
  C1_merge_no_lookahead wCrsp wComp wCcm wM wF (by decide) (by rfl)
